import Mathlib

/-!
Verification of the image-enzyme converter core against its specification.

The definitions below are shallow embeddings of the Python source:
  * `src/vsi_to_univ.py` — class `VSIToUniv` (scene selection, axis
    normalization, pyramid generation, thumbnail, `.univ` writer);
  * `src/format_converter_gui.py` — class `FormatConverterGUI`
    (conversion orchestration, two-hop routing through `.temp.univ`).

Machine integers and numpy arrays are modelled with `Nat` extents and total
index functions; numpy basic slicing `a[::k]` over an axis of extent `n`
yields extent `(n + k - 1) / k` (integer ceiling), and `np.newaxis` inserts an
extent-1 axis.  Float expressions in the source (`256 / x`, `int(1 / scale)`)
are modelled by their exact rational value with truncation toward zero, which
agrees with the IEEE evaluation at every input used in a theorem below.
-/

/-- One entry of the scene list produced by `VSIToUniv._analyze_vsi_structure`:
name, `width` (extent of the last axis) and `height` (second to last axis).
The scene's `index` field always equals its position in the list, so the list
position plays the role of the index here. -/
structure Scene where
  name : List Char
  width : Nat
  height : Nat
deriving DecidableEq, Repr

/-- The `total_pixels` field computed by `_analyze_vsi_structure`:
`y_size * x_size`. -/
def sceneTotalPixels (s : Scene) : Nat := s.height * s.width

/-- Whether `sub` occurs as a contiguous run inside `l` — the Python
`sub in l` substring test. -/
def containsSeq (sub : List Char) : List Char → Bool
  | [] => sub.isEmpty
  | c :: rest => List.isPrefixOf sub (c :: rest) || containsSeq sub rest

/-- The label/macro test of `_find_main_image_scene`:
`"label" in s['name'].lower() or "macro" in s['name'].lower()`. -/
def isAuxScene (s : Scene) : Bool :=
  containsSeq ("label".toList) (s.name.map Char.toLower) ||
    containsSeq ("macro".toList) (s.name.map Char.toLower)

/-- Key function of the Python `max(main_scenes, key=lambda s: s['total_pixels'])`
call, applied to an (index, scene) pair. -/
def sceneKey (p : Nat × Scene) : Nat := sceneTotalPixels p.2

/-- CPython `max(...)` over a nonempty list: scan left to right, replacing the
current best only on a strictly greater key, so the first maximum wins. -/
def pickLargest (best : Nat × Scene) : List (Nat × Scene) → Nat × Scene
  | [] => best
  | c :: rest => pickLargest (if sceneKey best < sceneKey c then c else best) rest

/-- The candidate list inside `VSIToUniv._find_main_image_scene`: all
(index, scene) pairs whose name does not contain "label"/"macro"
(case-insensitive), falling back to the whole list when that filter is empty.
An empty scene list stays empty, matching the early `return 0`. -/
def sceneCands (scenes : List Scene) : List (Nat × Scene) :=
  if (scenes.enum.filter (fun p => !(isAuxScene p.2))).isEmpty then scenes.enum
  else scenes.enum.filter (fun p => !(isAuxScene p.2))

/-- Embedding of `VSIToUniv._find_main_image_scene` (src/vsi_to_univ.py
lines 292-306): return 0 for an empty list, otherwise the index of the
first largest-by-`total_pixels` candidate. -/
def findMainImageScene (scenes : List Scene) : Nat :=
  match sceneCands scenes with
  | [] => 0
  | c :: rest => (pickLargest c rest).1

/-- The scene list of the spec's determinism example. -/
def exampleScenes : List Scene :=
  [Scene.mk ("Label_1".toList) 100 100,
   Scene.mk ("20x_BF_01".toList) 40000 30000,
   Scene.mk ("Overview".toList) 2000 1500]

example : findMainImageScene exampleScenes = 1 := by decide
example : findMainImageScene [] = 0 := by decide
example : isAuxScene (Scene.mk ("Label_1".toList) 100 100) = true := by decide
example : isAuxScene (Scene.mk ("20x_BF_01".toList) 40000 30000) = false := by decide

/-- Shape of the canonical 5-axis tensor `(T, C, Z, Y, X)`. -/
structure Shape5 where
  t : Nat
  c : Nat
  z : Nat
  y : Nat
  x : Nat
deriving DecidableEq, Repr

/-- Element count of a canonical tensor, numpy's `dset.size`. -/
def numel (s : Shape5) : Nat := s.t * s.c * s.z * s.y * s.x

/-- One pyramid step of `VSIToUniv._create_pyramid`:
`downsampled = current_data[:, :, :, ::2, ::2]`.  Stride-2 basic slicing keeps
T, C, Z and maps an extent `n` axis to extent `(n + 1) / 2` (ceiling of n/2). -/
def downsample (s : Shape5) : Shape5 :=
  Shape5.mk s.t s.c s.z ((s.y + 1) / 2) ((s.x + 1) / 2)

/-- Shapes of the levels generated by `VSIToUniv._create_pyramid`
(src/vsi_to_univ.py lines 508-537): level 1, level 2, ... produced by the loop
`while min(current_data.shape[3], current_data.shape[4]) > 256`. -/
def pyramidShapes (s : Shape5) : List Shape5 :=
  if 256 < min s.y s.x then downsample s :: pyramidShapes (downsample s) else []
termination_by s.y
decreasing_by
  have hy : 256 < s.y := lt_of_lt_of_le (by assumption) (Nat.min_le_left s.y s.x)
  simp only [downsample]
  omega

/-- Unfolding equation for the pyramid loop. -/
theorem pyramidShapes_eq (s : Shape5) :
    pyramidShapes s =
      if 256 < min s.y s.x then downsample s :: pyramidShapes (downsample s)
      else [] := by
  rw [pyramidShapes.eq_def]

/-- The base level followed by the generated levels: level 0, 1, 2, ... -/
def pyramidChain (s : Shape5) : List Shape5 := s :: pyramidShapes s

example : pyramidShapes (Shape5.mk 1 1 1 513 513) =
    [Shape5.mk 1 1 1 257 257, Shape5.mk 1 1 1 129 129] := by
  rw [pyramidShapes_eq]
  rw [if_pos (by norm_num)]
  show Shape5.mk 1 1 1 257 257 :: pyramidShapes (Shape5.mk 1 1 1 257 257) = _
  rw [pyramidShapes_eq]
  rw [if_pos (by norm_num)]
  show _ :: Shape5.mk 1 1 1 129 129 :: pyramidShapes (Shape5.mk 1 1 1 129 129) = _
  rw [pyramidShapes_eq]
  norm_num

/-- Top-level write events of `VSIToUniv._write_univ`, in the order the code
issues them: the `ImageData/Resolution_k` datasets, the `Thumbnail` dataset,
the `Metadata` group, the `Provenance` group, and the schema stamp written as
root attributes by `_write_schema`. -/
inductive UnivGroup where
  | imageData (level : Nat)
  | thumbnail
  | metadata
  | provenance
  | schemaStamp
deriving DecidableEq, Repr

/-- Observable outcome of one `_write_univ` call: whether a file exists at the
output path afterwards, which groups were written in order, the root
attributes, and whether the empty-dataset error was raised. -/
structure WriteOutcome where
  fileAtPath : Bool
  groups : List UnivGroup
  rootAttrs : List (String × String)
  emptyErr : Bool
deriving DecidableEq, Repr

/-- Embedding of `VSIToUniv._write_univ` (src/vsi_to_univ.py lines 442-506).
`h5py.File(output_path, 'w')` creates (or truncates) the file at the output
path before anything else.  `ImageData/Resolution_0` is written first; then
`if dset.size == 0` raises the empty-dataset error — the `with` block closes
the file but no code removes it.  Otherwise the pyramid levels are written
when `create_pyramid and min(shape[3], shape[4]) > 512`, followed by
`Thumbnail`, `Metadata`, `Provenance` and the schema attributes
`format="univ"`, `version="1.0"`, `schema_version="1.0"` (`_write_schema`,
lines 619-624). -/
def writeUniv (s : Shape5) (createPyr : Bool) : WriteOutcome :=
  if numel s = 0 then
    WriteOutcome.mk true [UnivGroup.imageData 0] [] true
  else
    WriteOutcome.mk true
      (UnivGroup.imageData 0 ::
        ((if createPyr = true ∧ 512 < min s.y s.x then
            (List.range (pyramidShapes s).length).map
              (fun i => UnivGroup.imageData (i + 1))
          else []) ++
         [UnivGroup.thumbnail, UnivGroup.metadata, UnivGroup.provenance,
          UnivGroup.schemaStamp]))
      [("format", "univ"), ("version", "1.0"), ("schema_version", "1.0")]
      false

/-- A canonical rank-5 tensor: extents plus a total index function
(indices beyond the extents are never consulted by any theorem below). -/
structure Arr5 (α : Type) where
  t : Nat
  c : Nat
  z : Nat
  y : Nat
  x : Nat
  data : Nat → Nat → Nat → Nat → Nat → α

/-- A raw rank-4 decoded array, axes in source order `d0, d1, d2, d3`. -/
structure Arr4 (α : Type) where
  d0 : Nat
  d1 : Nat
  d2 : Nat
  d3 : Nat
  data : Nat → Nat → Nat → Nat → α

/-- A raw rank-6 decoded array `(T, C, Z, Y, X, S)` with per-pixel sample
axis S. -/
structure Arr6 (α : Type) where
  t : Nat
  c : Nat
  z : Nat
  y : Nat
  x : Nat
  s : Nat
  data : Nat → Nat → Nat → Nat → Nat → Nat → α

/-- A thumbnail array `(C, Y, X)`. -/
structure Arr3 (α : Type) where
  c : Nat
  y : Nat
  x : Nat
  data : Nat → Nat → Nat → α

/-- Embedding of the rank-4 branch of `VSIToUniv.convert`
(src/vsi_to_univ.py lines 173-175):
`image_data = image_data[:, :, np.newaxis, :, :]` — a singleton axis is
inserted at position 2 unconditionally, whatever the declared axis
semantics of the four source axes were. -/
def normalizeRank4 {α : Type} (a : Arr4 α) : Arr5 α :=
  Arr5.mk a.d0 a.d1 1 a.d2 a.d3 (fun t c _ y x => a.data t c y x)

/-- Embedding of the rank-6 branch of `VSIToUniv.convert` (src/vsi_to_univ.py
lines 179-185) and of `FormatConverterGUI._convert_vsi_to_ometiff`
(format_converter_gui.py lines 1494-1501):
`image_data.transpose(0, 1, 5, 2, 3, 4).reshape(t, c*s, z, y, x)`.
After the transpose the axis order is `(T, C, S, Z, Y, X)`; the row-major
reshape merges the adjacent C and S axes, sending merged channel `c'` to
source channel `c' / S` and sample `c' % S`. -/
def mergeSampleAxis {α : Type} (a : Arr6 α) : Arr5 α :=
  Arr5.mk a.t (a.c * a.s) a.z a.y a.x
    (fun t cp z y x => a.data t (cp / a.s) z y x (cp % a.s))

/-- Embedding of `VSIToUniv._create_thumbnail` (src/vsi_to_univ.py lines
539-560).  `scale = min(256/x_size, 256/y_size)`; `scale >= 1.0` holds exactly
when both extents are at most 256, in which case
`thumbnail = image_data[0, :, 0, :, :]` is used verbatim.  Otherwise
`step = max(1, int(1/scale))` with `1/scale = max(x, y)/256` truncated toward
zero, and `thumbnail = image_data[0, :, 0, ::step, ::step]`, whose Y and X
extents are the ceilings `(n + step - 1) / step`. -/
def createThumbnail {α : Type} (a : Arr5 α) : Arr3 α :=
  if a.x ≤ 256 ∧ a.y ≤ 256 then
    Arr3.mk a.c a.y a.x (fun c y x => a.data 0 c 0 y x)
  else
    Arr3.mk a.c
      ((a.y + max 1 (max a.x a.y / 256) - 1) / max 1 (max a.x a.y / 256))
      ((a.x + max 1 (max a.x a.y / 256) - 1) / max 1 (max a.x a.y / 256))
      (fun c y x =>
        a.data 0 c 0 (y * max 1 (max a.x a.y / 256)) (x * max 1 (max a.x a.y / 256)))

/-- Filesystem footprint of one two-hop conversion: whether the intermediate
`.temp.univ` file and the destination exist. -/
structure Fs where
  temp : Bool
  dest : Bool
deriving DecidableEq, Repr

/-- `self._convert_omezarr_to_univ(input_path, str(temp_univ))`: on success the
intermediate `.univ` container exists at the `.temp.univ` path. -/
def hop1 (fs : Fs) : Fs := Fs.mk true fs.dest

/-- `self._convert_univ_to_ometiff(str(temp_univ), output_path)`: decode the
intermediate container, then encode the destination.  If the decode fails an
exception is raised before the destination is created. -/
def hop2 (decodeFails : Bool) (fs : Fs) : Except Unit Fs :=
  if decodeFails then Except.error () else Except.ok (Fs.mk fs.temp true)

/-- `if temp_univ.exists(): temp_univ.unlink()`. -/
def cleanupTemp (fs : Fs) : Fs := if fs.temp then Fs.mk false fs.dest else fs

/-- Embedding of the OME-Zarr → OME-TIFF branch of
`FormatConverterGUI._convert_file` (format_converter_gui.py lines 834-841; the
batch variant at lines 989-994 is the same sequence).  The three statements
run in order with no `try`/`finally`: an exception in the second hop
propagates to the handler at line 905, which logs and returns without touching
the filesystem, so the conditional unlink is only reached on success.  Returns
the final filesystem state and whether the conversion failed. -/
def convertZarrToTiffBranch (decodeFails : Bool) : Fs × Bool :=
  let fs1 := hop1 (Fs.mk false false)
  match hop2 decodeFails fs1 with
  | Except.error _ => (fs1, true)
  | Except.ok fs2 => (cleanupTemp fs2, false)

/-- The level-count formula asserted by the spec for a generated pyramid:
`floor(log2(min(Y0, X0) / 256))`.  For `m` in `[256 * 2 ^ k, 256 * 2 ^ (k+1))`
both the real-number formula and `Nat.log 2 (m / 256)` equal `k`. -/
def specLevelFormula (m : Nat) : Nat := Nat.log 2 (m / 256)

example : (writeUniv (Shape5.mk 1 1 1 0 5) true).emptyErr = true := by decide
example : (writeUniv (Shape5.mk 1 1 1 0 5) true).fileAtPath = true := by decide
example : (convertZarrToTiffBranch true).1.temp = true := by decide
example : (createThumbnail (Arr5.mk 1 1 1 300 300 (fun _ _ _ _ _ => (0 : Nat)))).y = 300 := by decide

/-- Claim C10: called with an empty list of scene descriptors, the scene
selector returns index 0 rather than failing (`if not scene_info: return 0`). -/
theorem C10_empty_scene_list : findMainImageScene [] = 0 := by decide

/-- Claim C3 (amended): the rank-4 normalizer inserts a singleton axis at
position 2 unconditionally, so an input declared `(T,C,Y,X)` becomes
`(T,C,1,Y,X)` with every element preserved; an input declared `(Z,C,Y,X)` is
treated identically, so its Z extent stays in the leading (T) slot — the
output is `(Z,C,1,Y,X)`, not the `(1,C,Z,Y,X)` the claim states. -/
theorem C3_rank4_normalizer_amended (α : Type) (a : Arr4 α) :
    ((normalizeRank4 a).t = a.d0 ∧ (normalizeRank4 a).c = a.d1 ∧
     (normalizeRank4 a).z = 1 ∧ (normalizeRank4 a).y = a.d2 ∧
     (normalizeRank4 a).x = a.d3) ∧
    ∀ i j k l m, (normalizeRank4 a).data i j k l m = a.data i j l m :=
  ⟨⟨rfl, rfl, rfl, rfl, rfl⟩, fun _ _ _ _ _ => rfl⟩

/-- A rank-4 input whose declared layout is `(Z,C,Y,X)` with `Z = 2`,
`C = Y = X = 1`; element value = its first-axis (Z) index. -/
def zcyxExample : Arr4 Nat := Arr4.mk 2 1 1 1 (fun i _ _ _ => i)

/-- Claim C3 counterexample: for the `(Z,C,Y,X)` input of extents
`(2,1,1,1)` the claim demands output extents `(1,C,Z,Y,X) = (1,1,2,1,1)`,
but the code produces `(2,1,1,1,1)` — the Z extent lands in the T slot. -/
theorem C3_rank4_counterexample :
    (normalizeRank4 zcyxExample).t = 2 ∧ (normalizeRank4 zcyxExample).z = 1 ∧
      ¬((normalizeRank4 zcyxExample).t = 1 ∧ (normalizeRank4 zcyxExample).z = 2) := by
  exact ⟨rfl, rfl, by intro h; exact absurd h.1 (by decide)⟩

/-- Claim C4 (amended): on the two-hop OME-Zarr → OME-TIFF route the
intermediate `.temp.univ` container is removed on the success exit path only;
when the second hop fails, the exception bypasses the conditional unlink and
the `.temp.univ` file is left on disk (the destination is not created when
the decode of the intermediate container fails). -/
theorem C4_two_hop_cleanup_amended :
    ((convertZarrToTiffBranch false).1.temp = false ∧
     (convertZarrToTiffBranch false).1.dest = true ∧
     (convertZarrToTiffBranch false).2 = false) ∧
    ((convertZarrToTiffBranch true).1.temp = true ∧
     (convertZarrToTiffBranch true).1.dest = false ∧
     (convertZarrToTiffBranch true).2 = true) := by decide

/-- Claim C4 counterexample: a failing second hop terminates the conversion
with the intermediate `.temp.univ` container still on disk, contradicting the
claim that removal is guaranteed on the failure exit path. -/
theorem C4_cleanup_counterexample :
    (convertZarrToTiffBranch true).2 = true ∧
      (convertZarrToTiffBranch true).1.temp = true := by decide

/-- Claim C5 (amended): writing a zero-element tensor raises the
empty-dataset error after only `ImageData/Resolution_0` was written, but the
container file — created by opening the output path in write mode — is left
behind at the output path; no code removes it on the error path. -/
theorem C5_empty_write_amended (s : Shape5) (b : Bool) (h : numel s = 0) :
    (writeUniv s b).emptyErr = true ∧ (writeUniv s b).fileAtPath = true ∧
      (writeUniv s b).groups = [UnivGroup.imageData 0] := by
  simp [writeUniv, h]

/-- Witness for C5 at the zero-element shape `(0,1,1,4,4)`. -/
theorem C5_empty_write_witness :
    numel (Shape5.mk 0 1 1 4 4) = 0 ∧
      ((writeUniv (Shape5.mk 0 1 1 4 4) false).emptyErr = true ∧
       (writeUniv (Shape5.mk 0 1 1 4 4) false).fileAtPath = true ∧
       (writeUniv (Shape5.mk 0 1 1 4 4) false).groups = [UnivGroup.imageData 0]) :=
  ⟨by decide, C5_empty_write_amended (Shape5.mk 0 1 1 4 4) false (by decide)⟩

/-- Claim C5 counterexample: for the zero-element tensor of shape
`(1,1,1,0,5)` the write fails with the empty-dataset error, yet a container
file is left at the output path — the claim says none is. -/
theorem C5_empty_write_counterexample :
    (writeUniv (Shape5.mk 1 1 1 0 5) true).emptyErr = true ∧
      (writeUniv (Shape5.mk 1 1 1 0 5) true).fileAtPath = true := by decide

/-- A base tensor of shape `(1,1,1,300,300)`. -/
def thumbBase300 : Arr5 Nat := Arr5.mk 1 1 1 300 300 (fun _ _ _ _ _ => 0)

/-- Claim C6, code evaluated at the failing input: for a `(1,1,1,300,300)`
base tensor the computed scale is `256/300 < 1`, the step is
`int(300/256) = 1`, and the produced thumbnail is `300 × 300` — its larger
side exceeds 256, contradicting the claim (and the function's own docstring
"Create thumbnail (256x256 max)"). -/
theorem C6_thumbnail_bound_eval :
    (createThumbnail thumbBase300).y = 300 ∧ (createThumbnail thumbBase300).x = 300 ∧
      256 < max (createThumbnail thumbBase300).y (createThumbnail thumbBase300).x := by
  decide

/-- Claim C8: the rank-6 normalizer folds the sample axis S into the channel
axis: the output has extents `(T, C*S, Z, Y, X)` and the element at
`(t, c*S + sp, z, y, x)` is the input element at `(t, c, z, y, x, sp)` for
every sample index `sp < S`. -/
theorem C8_sample_fold (α : Type) (a : Arr6 α) (t c z y x sp : Nat)
    (h : sp < a.s) :
    ((mergeSampleAxis a).t = a.t ∧ (mergeSampleAxis a).c = a.c * a.s ∧
     (mergeSampleAxis a).z = a.z ∧ (mergeSampleAxis a).y = a.y ∧
     (mergeSampleAxis a).x = a.x) ∧
    (mergeSampleAxis a).data t (c * a.s + sp) z y x = a.data t c z y x sp := by
  refine ⟨⟨rfl, rfl, rfl, rfl, rfl⟩, ?_⟩
  have hs : 0 < a.s := lt_of_le_of_lt (Nat.zero_le sp) h
  show a.data t ((c * a.s + sp) / a.s) z y x ((c * a.s + sp) % a.s) =
    a.data t c z y x sp
  have h1 : (c * a.s + sp) / a.s = c := by
    rw [Nat.mul_comm, Nat.mul_add_div hs, Nat.div_eq_of_lt h, Nat.add_zero]
  have h2 : (c * a.s + sp) % a.s = sp := by
    rw [Nat.mul_comm c a.s, Nat.mul_add_mod, Nat.mod_eq_of_lt h]
  rw [h1, h2]

/-- An RGB rank-6 input `(T,C,Z,Y,X,S) = (1,2,1,4,5,3)` with injectively
coded element values. -/
def rgbExample : Arr6 Nat :=
  Arr6.mk 1 2 1 4 5 3
    (fun t c z y x sp => 100000 * t + 10000 * c + 1000 * z + 100 * y + 10 * x + sp)

/-- Witness for C8 at `rgbExample`, channel 1, sample 2. -/
theorem C8_sample_fold_witness :
    (2 : Nat) < rgbExample.s ∧
      (mergeSampleAxis rgbExample).data 0 (1 * rgbExample.s + 2) 0 3 4 =
        rgbExample.data 0 1 0 3 4 2 :=
  ⟨by decide, (C8_sample_fold Nat rgbExample 0 1 0 3 4 2 (by decide)).2⟩

/-- Claim C9: every container the writer produces (i.e. every non-failing
run of `_write_univ`) carries the root attributes `format="univ"`,
`version="1.0"`, `schema_version="1.0"`, and its write events occur in the
single-pass fixed order ImageData (base, then the pyramid levels) →
Thumbnail → Metadata → Provenance → Schema. -/
theorem C9_univ_layout (s : Shape5) (b : Bool) (h : numel s ≠ 0) :
    (writeUniv s b).rootAttrs =
      [("format", "univ"), ("version", "1.0"), ("schema_version", "1.0")] ∧
    ∃ n, (writeUniv s b).groups =
      UnivGroup.imageData 0 ::
        ((List.range n).map (fun i => UnivGroup.imageData (i + 1)) ++
         [UnivGroup.thumbnail, UnivGroup.metadata, UnivGroup.provenance,
          UnivGroup.schemaStamp]) := by
  constructor
  · simp [writeUniv, h]
  · by_cases hp : b = true ∧ 512 < min s.y s.x
    · refine ⟨(pyramidShapes s).length, ?_⟩
      simp only [writeUniv]
      rw [if_neg h, if_pos hp]
    · refine ⟨0, ?_⟩
      simp only [writeUniv]
      rw [if_neg h, if_neg hp]
      simp

/-- Witness for C9 at the shape `(1,1,1,10,10)` without pyramid request. -/
theorem C9_univ_layout_witness :
    numel (Shape5.mk 1 1 1 10 10) ≠ 0 ∧
      ((writeUniv (Shape5.mk 1 1 1 10 10) false).rootAttrs =
        [("format", "univ"), ("version", "1.0"), ("schema_version", "1.0")] ∧
       ∃ n, (writeUniv (Shape5.mk 1 1 1 10 10) false).groups =
         UnivGroup.imageData 0 ::
           ((List.range n).map (fun i => UnivGroup.imageData (i + 1)) ++
            [UnivGroup.thumbnail, UnivGroup.metadata, UnivGroup.provenance,
             UnivGroup.schemaStamp])) :=
  ⟨by decide, C9_univ_layout (Shape5.mk 1 1 1 10 10) false (by decide)⟩

/-- Concrete run of the pyramid loop on a 513×513 base:
513 → 257 → 129, two generated levels. -/
theorem pyramidShapes_513 :
    pyramidShapes (Shape5.mk 1 1 1 513 513) =
      [Shape5.mk 1 1 1 257 257, Shape5.mk 1 1 1 129 129] := by
  rw [pyramidShapes_eq]
  rw [if_pos (by norm_num)]
  show Shape5.mk 1 1 1 257 257 :: pyramidShapes (Shape5.mk 1 1 1 257 257) = _
  rw [pyramidShapes_eq]
  rw [if_pos (by norm_num)]
  show _ :: Shape5.mk 1 1 1 129 129 :: pyramidShapes (Shape5.mk 1 1 1 129 129) = _
  rw [pyramidShapes_eq]
  norm_num

/-- Fuel-indexed step lemma for the pyramid chain: the level after position
`i` exists exactly when the level at position `i` has `min(Y, X) > 256`, and
is then its stride-2 downsampling. -/
theorem chainStepAux : ∀ (n : Nat) (s : Shape5), s.y ≤ n → ∀ i : Nat,
    (pyramidChain s)[i + 1]? =
      ((pyramidChain s)[i]?).bind
        (fun p => if 256 < min p.y p.x then some (downsample p) else none) := by
  intro n
  induction n with
  | zero =>
    intro s hs i
    have h0 : ¬ 256 < min s.y s.x := by
      have := Nat.min_le_left s.y s.x
      omega
    have hc : pyramidChain s = [s] := by
      rw [pyramidChain, pyramidShapes_eq, if_neg h0]
    rw [hc]
    cases i with
    | zero =>
      simp only [List.getElem?_cons_succ, List.getElem?_nil,
        List.getElem?_cons_zero, Option.some_bind]
      rw [if_neg h0]
    | succ j => simp
  | succ n ih =>
    intro s hs i
    by_cases hcond : 256 < min s.y s.x
    · have hy : 256 < s.y := lt_of_lt_of_le hcond (Nat.min_le_left s.y s.x)
      have hc : pyramidChain s = s :: pyramidChain (downsample s) := by
        rw [pyramidChain, pyramidShapes_eq, if_pos hcond]
        rfl
      have hdn : (downsample s).y ≤ n := by
        simp only [downsample]
        omega
      rw [hc]
      cases i with
      | zero =>
        simp only [List.getElem?_cons_succ, List.getElem?_cons_zero,
          Option.some_bind]
        rw [if_pos hcond]
        rw [pyramidChain]
        simp
      | succ j =>
        simp only [List.getElem?_cons_succ]
        exact ih (downsample s) hdn j
    · have hc : pyramidChain s = [s] := by
        rw [pyramidChain, pyramidShapes_eq, if_neg hcond]
      rw [hc]
      cases i with
      | zero =>
        simp only [List.getElem?_cons_succ, List.getElem?_nil,
          List.getElem?_cons_zero, Option.some_bind]
        rw [if_neg hcond]
      | succ j => simp

/-- Claim C1 (amended): each generated pyramid level is obtained from the
previous one by keeping T, C, Z and replacing the Y and X extents by their
stride-2 slice lengths `ceil(Y/2) = (Y+1)/2` and `ceil(X/2) = (X+1)/2` — the
ceiling, not the floor the claim states — and a further level exists after
position `i` of the chain exactly when the level at position `i` still has
`min(Y, X) > 256`. -/
theorem C1_pyramid_step_amended (s : Shape5) (i : Nat) :
    (pyramidChain s)[i + 1]? =
      ((pyramidChain s)[i]?).bind
        (fun p => if 256 < min p.y p.x then some (downsample p) else none) :=
  chainStepAux s.y s (Nat.le_refl s.y) i

/-- Claim C1 counterexample: from the base `(1,1,1,513,513)` the first
generated level has Y extent `ceil(513/2) = 257`, whereas the claim requires
`floor(513/2) = 256`. -/
theorem C1_floor_counterexample :
    (pyramidShapes (Shape5.mk 1 1 1 513 513)).head? =
        some (Shape5.mk 1 1 1 257 257) ∧
      (513 : Nat) / 2 = 256 ∧ (257 : Nat) ≠ 513 / 2 := by
  refine ⟨?_, by norm_num, by norm_num⟩
  rw [pyramidShapes_513]
  rfl

/-- `min` commutes with the stride-2 downsampling of both spatial axes. -/
theorem min_downsample (s : Shape5) :
    min (downsample s).y (downsample s).x = (min s.y s.x + 1) / 2 := by
  simp only [downsample]
  rcases Nat.le_total s.y s.x with h | h
  · rw [Nat.min_eq_left h, Nat.min_eq_left (by omega)]
  · rw [Nat.min_eq_right h, Nat.min_eq_right (by omega)]

/-- Fuel-indexed characterization of the generated level count: it is the
least `N` with `min(Y0, X0) ≤ 256 * 2 ^ N`. -/
theorem pyramidLenAux : ∀ (n : Nat) (s : Shape5), s.y ≤ n →
    min s.y s.x ≤ 256 * 2 ^ (pyramidShapes s).length ∧
      ∀ K, min s.y s.x ≤ 256 * 2 ^ K → (pyramidShapes s).length ≤ K := by
  intro n
  induction n with
  | zero =>
    intro s hs
    have h0 : ¬ 256 < min s.y s.x := by
      have := Nat.min_le_left s.y s.x
      omega
    rw [pyramidShapes_eq, if_neg h0]
    constructor
    · simpa using Nat.le_of_not_lt h0
    · intro K _
      simp
  | succ n ih =>
    intro s hs
    by_cases hcond : 256 < min s.y s.x
    · have hy : 256 < s.y := lt_of_lt_of_le hcond (Nat.min_le_left s.y s.x)
      have hdn : (downsample s).y ≤ n := by
        simp only [downsample]
        omega
      obtain ⟨iha, ihb⟩ := ih (downsample s) hdn
      rw [min_downsample] at iha ihb
      rw [pyramidShapes_eq, if_pos hcond]
      simp only [List.length_cons]
      constructor
      · have h2 : min s.y s.x ≤ 2 * ((min s.y s.x + 1) / 2) := by omega
        have h3 : 256 * 2 ^ ((pyramidShapes (downsample s)).length + 1) =
            2 * (256 * 2 ^ (pyramidShapes (downsample s)).length) := by ring
        rw [h3]
        exact le_trans h2 (Nat.mul_le_mul_left 2 iha)
      · intro K hK
        cases K with
        | zero =>
          exfalso
          simp only [pow_zero, Nat.mul_one] at hK
          omega
        | succ K' =>
          have h4 : 256 * 2 ^ (K' + 1) = 2 * (256 * 2 ^ K') := by ring
          rw [h4] at hK
          have h5 : (min s.y s.x + 1) / 2 ≤ 256 * 2 ^ K' := by omega
          exact Nat.succ_le_succ (ihb K' h5)
    · rw [pyramidShapes_eq, if_neg hcond]
      constructor
      · simpa using Nat.le_of_not_lt hcond
      · intro K _
        simp

/-- Claim C7 (amended): if `min(Y0, X0) ≤ 512` the writer generates no
pyramid regardless of the caller's request (unchanged from the claim); and
the number of levels the pyramid builder generates is the least `N` with
`min(Y0, X0) ≤ 256 * 2 ^ N`, i.e. the ceiling of `log2(min(Y0,X0)/256)` —
not the floor the claim states — because stride-2 slicing rounds odd extents
up. -/
theorem C7_pyramid_policy_amended (s : Shape5) (b : Bool) :
    (numel s ≠ 0 → min s.y s.x ≤ 512 →
      (writeUniv s b).groups =
        [UnivGroup.imageData 0, UnivGroup.thumbnail, UnivGroup.metadata,
         UnivGroup.provenance, UnivGroup.schemaStamp]) ∧
    min s.y s.x ≤ 256 * 2 ^ (pyramidShapes s).length ∧
    ∀ K, min s.y s.x ≤ 256 * 2 ^ K → (pyramidShapes s).length ≤ K := by
  refine ⟨?_, (pyramidLenAux s.y s (Nat.le_refl s.y)).1,
    (pyramidLenAux s.y s (Nat.le_refl s.y)).2⟩
  intro h hle
  have hp : ¬(b = true ∧ 512 < min s.y s.x) := by
    rintro ⟨_, hlt⟩
    omega
  simp only [writeUniv]
  rw [if_neg h, if_neg hp]
  simp

/-- Witness for C7 at the shape `(1,1,1,100,100)` with the pyramid
requested: no pyramid level is written and the generated level count is 0. -/
theorem C7_pyramid_policy_witness :
    (writeUniv (Shape5.mk 1 1 1 100 100) true).groups =
      [UnivGroup.imageData 0, UnivGroup.thumbnail, UnivGroup.metadata,
       UnivGroup.provenance, UnivGroup.schemaStamp] ∧
    (pyramidShapes (Shape5.mk 1 1 1 100 100)).length ≤ 0 :=
  ⟨(C7_pyramid_policy_amended (Shape5.mk 1 1 1 100 100) true).1
      (by decide) (by decide),
   (C7_pyramid_policy_amended (Shape5.mk 1 1 1 100 100) true).2.2 0 (by decide)⟩

/-- Claim C7 counterexample: the base `(1,1,1,513,513)` has
`min(Y0, X0) = 513 > 512`, so a requested pyramid is generated, and the
builder produces 2 levels (513 → 257 → 129), while the claim's formula
`floor(log2(513/256))` evaluates to 1. -/
theorem C7_level_count_counterexample :
    512 < min 513 513 ∧
      (pyramidShapes (Shape5.mk 1 1 1 513 513)).length = 2 ∧
      specLevelFormula (min 513 513) = 1 ∧ (2 : Nat) ≠ 1 := by
  refine ⟨by norm_num, ?_, ?_, by decide⟩
  · rw [pyramidShapes_513]
    rfl
  · unfold specLevelFormula
    have h513 : min 513 513 / 256 = 2 := by norm_num
    rw [h513]
    exact Nat.log_eq_of_pow_le_of_lt_pow (by norm_num) (by norm_num)

/-- The scanned maximum is one of the scanned elements. -/
theorem pickLargest_mem : ∀ (l : List (Nat × Scene)) (b : Nat × Scene),
    pickLargest b l ∈ b :: l := by
  intro l
  induction l with
  | nil =>
    intro b
    simp [pickLargest]
  | cons c rest ih =>
    intro b
    show pickLargest (if sceneKey b < sceneKey c then c else b) rest ∈ b :: c :: rest
    rcases List.mem_cons.mp (ih (if sceneKey b < sceneKey c then c else b)) with h1 | h2
    · rw [h1]
      by_cases hbc : sceneKey b < sceneKey c
      · rw [if_pos hbc]
        exact List.mem_cons_of_mem _ (List.mem_cons_self _ _)
      · rw [if_neg hbc]
        exact List.mem_cons_self _ _
    · exact List.mem_cons_of_mem _ (List.mem_cons_of_mem _ h2)

/-- The scanned maximum dominates every scanned element. -/
theorem pickLargest_le : ∀ (l : List (Nat × Scene)) (b p : Nat × Scene),
    p ∈ b :: l → sceneKey p ≤ sceneKey (pickLargest b l) := by
  intro l
  induction l with
  | nil =>
    intro b p hp
    rcases List.mem_cons.mp hp with h1 | h2
    · rw [h1]
      exact Nat.le_refl _
    · simp at h2
  | cons c rest ih =>
    intro b p hp
    show sceneKey p ≤ sceneKey (pickLargest (if sceneKey b < sceneKey c then c else b) rest)
    have hb : sceneKey b ≤ sceneKey (if sceneKey b < sceneKey c then c else b) := by
      by_cases hbc : sceneKey b < sceneKey c
      · rw [if_pos hbc]
        exact Nat.le_of_lt hbc
      · rw [if_neg hbc]
    have hcle : sceneKey c ≤ sceneKey (if sceneKey b < sceneKey c then c else b) := by
      by_cases hbc : sceneKey b < sceneKey c
      · rw [if_pos hbc]
      · rw [if_neg hbc]
        exact Nat.le_of_not_lt hbc
    have hmax := ih (if sceneKey b < sceneKey c then c else b) _
      (List.mem_cons_self _ rest)
    rcases List.mem_cons.mp hp with h1 | h2
    · rw [h1]
      exact le_trans hb hmax
    · rcases List.mem_cons.mp h2 with h3 | h4
      · rw [h3]
        exact le_trans hcle hmax
      · exact ih _ p (List.mem_cons_of_mem _ h4)

/-- CPython `max` keeps the first maximum: the scanned list splits at the
returned element, and everything before it is strictly smaller. -/
theorem pickLargest_decomp : ∀ (l : List (Nat × Scene)) (b : Nat × Scene),
    ∃ l1 l2, b :: l = l1 ++ pickLargest b l :: l2 ∧
      ∀ p ∈ l1, sceneKey p < sceneKey (pickLargest b l) := by
  intro l
  induction l with
  | nil =>
    intro b
    exact ⟨[], [], rfl, by simp⟩
  | cons c rest ih =>
    intro b
    by_cases hbc : sceneKey b < sceneKey c
    · have hres : pickLargest b (c :: rest) = pickLargest c rest := by
        show pickLargest (if sceneKey b < sceneKey c then c else b) rest = _
        rw [if_pos hbc]
      obtain ⟨l1, l2, heq, hlt⟩ := ih c
      refine ⟨b :: l1, l2, ?_, ?_⟩
      · rw [hres, List.cons_append, ← heq]
      · intro p hp
        rw [hres]
        rcases List.mem_cons.mp hp with h1 | h2
        · rw [h1]
          exact lt_of_lt_of_le hbc (pickLargest_le rest c c (List.mem_cons_self _ _))
        · exact hlt p h2
    · have hres : pickLargest b (c :: rest) = pickLargest b rest := by
        show pickLargest (if sceneKey b < sceneKey c then c else b) rest = _
        rw [if_neg hbc]
      obtain ⟨l1, l2, heq, hlt⟩ := ih b
      cases l1 with
      | nil =>
        rw [List.nil_append] at heq
        injection heq with hb hrest
        refine ⟨[], c :: rest, ?_, by simp⟩
        rw [hres, List.nil_append, ← hb]
      | cons q l1' =>
        rw [List.cons_append] at heq
        injection heq with hq hrest
        have hbmem : b ∈ q :: l1' := by
          rw [← hq]
          exact List.mem_cons_self _ _
        have hblt : sceneKey b < sceneKey (pickLargest b rest) := hlt b hbmem
        refine ⟨b :: c :: l1', l2, ?_, ?_⟩
        · rw [hres, List.cons_append, List.cons_append, ← hrest]
        · intro p hp
          rw [hres]
          rcases List.mem_cons.mp hp with hpb | hp2
          · rw [hpb]
            exact hblt
          · rcases List.mem_cons.mp hp2 with hpc | hp3
            · rw [hpc]
              exact lt_of_le_of_lt (Nat.le_of_not_lt hbc) hblt
            · exact hlt p (List.mem_cons_of_mem _ hp3)

/-- Every pair listed by `enumFrom n` has first component at least `n`. -/
theorem le_fst_of_mem_enumFrom {α : Type} :
    ∀ (l : List α) (n : Nat) (p : Nat × α), p ∈ List.enumFrom n l → n ≤ p.1 := by
  intro l
  induction l with
  | nil =>
    intro n p hp
    simp at hp
  | cons a rest ih =>
    intro n p hp
    rw [List.enumFrom_cons] at hp
    rcases List.mem_cons.mp hp with h1 | h2
    · rw [h1]
    · exact Nat.le_of_succ_le (ih (n + 1) p h2)

/-- The indices listed by `enumFrom` are strictly increasing. -/
theorem pairwise_fst_lt_enumFrom {α : Type} :
    ∀ (l : List α) (n : Nat),
      (List.enumFrom n l).Pairwise (fun p q => p.1 < q.1) := by
  intro l
  induction l with
  | nil =>
    intro n
    simp
  | cons a rest ih =>
    intro n
    rw [List.enumFrom_cons]
    refine List.Pairwise.cons ?_ (ih (n + 1))
    intro p hp
    exact lt_of_lt_of_le (Nat.lt_succ_self n) (le_fst_of_mem_enumFrom rest (n + 1) p hp)

/-- The second component of an `enumFrom` pair is a list element. -/
theorem snd_mem_of_mem_enumFrom {α : Type} :
    ∀ (l : List α) (n : Nat) (p : Nat × α), p ∈ List.enumFrom n l → p.2 ∈ l := by
  intro l
  induction l with
  | nil =>
    intro n p hp
    simp at hp
  | cons a rest ih =>
    intro n p hp
    rw [List.enumFrom_cons] at hp
    rcases List.mem_cons.mp hp with h1 | h2
    · rw [h1]
      exact List.mem_cons_self _ _
    · exact List.mem_cons_of_mem _ (ih (n + 1) p h2)

/-- Every list element appears in `enumFrom` under some index. -/
theorem exists_enumFrom_of_mem {α : Type} :
    ∀ (l : List α) (n : Nat) (a : α), a ∈ l → ∃ j, (j, a) ∈ List.enumFrom n l := by
  intro l
  induction l with
  | nil =>
    intro n a ha
    simp at ha
  | cons c rest ih =>
    intro n a ha
    rw [List.enumFrom_cons]
    rcases List.mem_cons.mp ha with h1 | h2
    · exact ⟨n, by rw [h1]; exact List.mem_cons_self _ _⟩
    · obtain ⟨j, hj⟩ := ih (n + 1) a h2
      exact ⟨j, List.mem_cons_of_mem _ hj⟩

/-- The candidate list of the scene selector has strictly increasing indices. -/
theorem sceneCands_pairwise (scenes : List Scene) :
    (sceneCands scenes).Pairwise (fun p q => p.1 < q.1) := by
  have henum : (scenes.enum).Pairwise (fun p q => p.1 < q.1) :=
    pairwise_fst_lt_enumFrom scenes 0
  unfold sceneCands
  split
  · exact henum
  · exact List.Pairwise.sublist (List.filter_sublist _) henum

/-- Candidates come from the enumerated scene list. -/
theorem mem_enum_of_mem_sceneCands (scenes : List Scene) (p : Nat × Scene)
    (hp : p ∈ sceneCands scenes) : p ∈ scenes.enum := by
  unfold sceneCands at hp
  split at hp
  · exact hp
  · exact (List.mem_filter.mp hp).1

/-- In a strictly index-sorted list, the element at which the first-maximum
scan stops has the least index among all elements of maximal key. -/
theorem first_max_least_index (l l1 l2 : List (Nat × Scene)) (r : Nat × Scene)
    (heq : l = l1 ++ r :: l2)
    (hlt : ∀ p ∈ l1, sceneKey p < sceneKey r)
    (hpw : l.Pairwise (fun p q => p.1 < q.1)) :
    ∀ p ∈ l, sceneKey p = sceneKey r → r.1 ≤ p.1 := by
  intro p hp hkey
  rw [heq] at hp hpw
  rcases List.mem_append.mp hp with h1 | h2
  · exact absurd hkey (Nat.ne_of_lt (hlt p h1))
  · rcases List.mem_cons.mp h2 with h3 | h4
    · rw [h3]
    · have hpw2 := (List.pairwise_append.mp hpw).2.1
      exact Nat.le_of_lt ((List.pairwise_cons.mp hpw2).1 p h4)

/-- Specification of the selector when the candidate list is nonempty: the
returned index belongs to a candidate of maximal pixel count, and among
equal-pixel candidates it is the least index. -/
theorem findMain_spec (scenes : List Scene) (c : Nat × Scene)
    (rest : List (Nat × Scene)) (hc : sceneCands scenes = c :: rest) :
    (findMainImageScene scenes, (pickLargest c rest).2) ∈ sceneCands scenes ∧
      (∀ p ∈ sceneCands scenes, sceneKey p ≤ sceneKey (pickLargest c rest)) ∧
      (∀ p ∈ sceneCands scenes, sceneKey p = sceneKey (pickLargest c rest) →
        findMainImageScene scenes ≤ p.1) := by
  have hfind : findMainImageScene scenes = (pickLargest c rest).1 := by
    unfold findMainImageScene
    rw [hc]
  refine ⟨?_, ?_, ?_⟩
  · rw [hfind, hc]
    exact pickLargest_mem rest c
  · intro p hp
    rw [hc] at hp
    exact pickLargest_le rest c p hp
  · intro p hp hkey
    rw [hc] at hp
    obtain ⟨l1, l2, heq, hlt⟩ := pickLargest_decomp rest c
    have hpw : (c :: rest).Pairwise (fun p q => p.1 < q.1) := by
      rw [← hc]
      exact sceneCands_pairwise scenes
    rw [hfind]
    exact first_max_least_index (c :: rest) l1 l2 (pickLargest c rest)
      heq hlt hpw p hp hkey

/-- Claim C2: among the scenes whose names do not contain "label"/"macro"
(case-insensitive) the selector returns the index of the one with the
greatest pixel count, ties broken by lowest scene index; if every scene is
label/macro it returns the greatest-pixel-count scene overall (same
tie-break); and on the spec's example list it returns index 1. -/
theorem C2_scene_selection (scenes : List Scene) :
    ((∃ s ∈ scenes, isAuxScene s = false) →
      ∃ sc, (findMainImageScene scenes, sc) ∈ scenes.enum ∧
        isAuxScene sc = false ∧
        ∀ j s, (j, s) ∈ scenes.enum → isAuxScene s = false →
          sceneTotalPixels s ≤ sceneTotalPixels sc ∧
            (sceneTotalPixels s = sceneTotalPixels sc →
              findMainImageScene scenes ≤ j)) ∧
    ((∀ s ∈ scenes, isAuxScene s = true) → scenes ≠ [] →
      ∃ sc, (findMainImageScene scenes, sc) ∈ scenes.enum ∧
        ∀ j s, (j, s) ∈ scenes.enum →
          sceneTotalPixels s ≤ sceneTotalPixels sc ∧
            (sceneTotalPixels s = sceneTotalPixels sc →
              findMainImageScene scenes ≤ j)) ∧
    findMainImageScene exampleScenes = 1 := by
  refine ⟨?_, ?_, by decide⟩
  · rintro ⟨s0, hs0mem, hs0⟩
    obtain ⟨j0, hj0⟩ := exists_enumFrom_of_mem scenes 0 s0 hs0mem
    have hj0e : (j0, s0) ∈ scenes.enum := hj0
    have hmainmem : (j0, s0) ∈ scenes.enum.filter (fun p => !(isAuxScene p.2)) :=
      List.mem_filter.mpr ⟨hj0e, by simp [hs0]⟩
    have hne : scenes.enum.filter (fun p => !(isAuxScene p.2)) ≠ [] :=
      List.ne_nil_of_mem hmainmem
    have hemp : (scenes.enum.filter (fun p => !(isAuxScene p.2))).isEmpty = false := by
      cases hfe : scenes.enum.filter (fun p => !(isAuxScene p.2)) with
      | nil => exact absurd hfe hne
      | cons a t => rfl
    have hcands : sceneCands scenes =
        scenes.enum.filter (fun p => !(isAuxScene p.2)) := by
      unfold sceneCands
      simp [hemp]
    obtain ⟨cc, crest, hcr⟩ := List.exists_cons_of_ne_nil hne
    have hc : sceneCands scenes = cc :: crest := by rw [hcands, hcr]
    obtain ⟨hrm, hmax, htie⟩ := findMain_spec scenes cc crest hc
    refine ⟨(pickLargest cc crest).2, mem_enum_of_mem_sceneCands scenes _ hrm, ?_, ?_⟩
    · have hf : (findMainImageScene scenes, (pickLargest cc crest).2) ∈
          scenes.enum.filter (fun p => !(isAuxScene p.2)) := by
        rw [← hcands]
        exact hrm
      have := (List.mem_filter.mp hf).2
      simpa using this
    · intro j s hjs hsaux
      have hjsc : (j, s) ∈ sceneCands scenes := by
        rw [hcands]
        exact List.mem_filter.mpr ⟨hjs, by simp [hsaux]⟩
      exact ⟨hmax (j, s) hjsc, fun hkey => htie (j, s) hjsc hkey⟩
  · intro hall hne0
    have hfilnil : scenes.enum.filter (fun p => !(isAuxScene p.2)) = [] := by
      rw [List.filter_eq_nil_iff]
      intro p hp
      have := hall p.2 (snd_mem_of_mem_enumFrom scenes 0 p hp)
      simp [this]
    have hcands : sceneCands scenes = scenes.enum := by
      unfold sceneCands
      rw [hfilnil]
      simp
    have henne : scenes.enum ≠ [] := by
      intro h
      have hlen := congrArg List.length h
      rw [List.enum_length] at hlen
      exact hne0 (List.length_eq_zero.mp hlen)
    obtain ⟨cc, crest, hcr⟩ := List.exists_cons_of_ne_nil henne
    have hc : sceneCands scenes = cc :: crest := by rw [hcands, hcr]
    obtain ⟨hrm, hmax, htie⟩ := findMain_spec scenes cc crest hc
    refine ⟨(pickLargest cc crest).2, mem_enum_of_mem_sceneCands scenes _ hrm, ?_⟩
    intro j s hjs
    have hjsc : (j, s) ∈ sceneCands scenes := by
      rw [hcands]
      exact hjs
    exact ⟨hmax (j, s) hjsc, fun hkey => htie (j, s) hjsc hkey⟩

/-- Witness for C2 at the spec's example scene list. -/
theorem C2_scene_selection_witness :
    ∃ sc, (findMainImageScene exampleScenes, sc) ∈ exampleScenes.enum ∧
      isAuxScene sc = false ∧
      ∀ j s, (j, s) ∈ exampleScenes.enum → isAuxScene s = false →
        sceneTotalPixels s ≤ sceneTotalPixels sc ∧
          (sceneTotalPixels s = sceneTotalPixels sc →
            findMainImageScene exampleScenes ≤ j) :=
  (C2_scene_selection exampleScenes).1
    ⟨Scene.mk ("20x_BF_01".toList) 40000 30000, by decide, by decide⟩
